import Mathlib

/-!
Shallow embedding of `src/emergent/main.py` (class `AgentModel`).

Modelling conventions:
* Python dictionaries (the parameter store and the per-node data records)
  are insertion-ordered association lists over `String` keys.
* Dynamically typed values are the inductive `PValue`; Python floats are
  idealised as rationals.
* The networkx graph is `Graph`: the generators used (`complete_graph`,
  `cycle_graph`, `wheel_graph`) label nodes `0 .. n-1`, so nodes are the
  range `0 .. n-1` and `data` is the list of node records in node order.
* The private field `self.__graph` can hold `None`, a graph, or — through
  the unguarded falsy branch of `set_graph` — an arbitrary object; it is
  modelled as `GraphRef`.
* The two behaviour callables (`initial_data_function`,
  `timestep_function`) are passed to the operations as `Option`-valued
  arguments instead of being stored in the structure (a stored
  `AgentModel → _` field would be a negative occurrence); `none` models
  the Python `None` default set in `__init__`.
* An operation that can raise returns the model state at raise time
  together with `.error msg`; mutations performed before the raise are
  visible in that state, exactly as for a caller that catches the
  exception.
-/

namespace Emergent

/-- A dynamically typed Python value as stored in the parameter set and in
node records: integer, float (idealised as a rational), string, `None`. -/
inductive PValue where
  | vInt (i : Int)
  | vFloat (q : ℚ)
  | vStr (s : String)
  | vNone
  deriving DecidableEq

/-- Python falsiness (`not x`): `0`, `0.0`, `""` and `None` are falsy. -/
def pyFalsy : PValue → Bool
  | .vInt i => i == 0
  | .vFloat q => q == 0
  | .vStr s => s == ""
  | .vNone => true

/-- Numeric reading of a dynamic value (`int` or `float`). -/
def asNum : PValue → Option ℚ
  | .vInt i => some (i : ℚ)
  | .vFloat q => some q
  | _ => none

/-- A Python `dict` with string keys, as an insertion-ordered association
list (dictionaries preserve insertion order; keys are unique in every
dictionary the code constructs). -/
abbrev Dict := List (String × PValue)

/-- `d[k]` as an `Option` (`d.get(k)`). -/
def dictGet (d : Dict) (k : String) : Option PValue :=
  (d.find? (fun e => e.1 == k)).map (fun e => e.2)

/-- `k in d`. -/
def dictMem (d : Dict) (k : String) : Bool :=
  d.any (fun e => e.1 == k)

/-- `d[k] = v`: overwrite in place if the key exists (keeping its
position, as Python dictionaries do), otherwise append. -/
def dictSet (d : Dict) (k : String) (v : PValue) : Dict :=
  if dictMem d k then d.map (fun e => if e.1 == k then (k, v) else e)
  else d ++ [(k, v)]

/-- `d.pop(k)` (the code only calls it on present keys). -/
def dictPop (d : Dict) (k : String) : Dict :=
  d.filter (fun e => e.1 != k)

/-- `old.update(new)`: merge `new` into `old`, overwriting on collision. -/
def dictUpdate (old new : Dict) : Dict :=
  new.foldl (fun acc e => dictSet acc e.1 e.2) old

/-- A node's data record (same representation as a parameter dictionary). -/
abbrev Rec := Dict

/-- Edge list of `nx.complete_graph n`: `itertools.combinations(range n, 2)`,
i.e. all pairs `(i, j)` with `i < j < n`, ordered by `i` then `j`
(`range(i+1, n)` is `List.range' (i+1) (n-(i+1))`). -/
def completeEdges (n : Nat) : List (Nat × Nat) :=
  (List.range n).flatMap (fun i => (List.range' (i + 1) (n - (i + 1))).map (fun j => (i, j)))

/-- Edge list of `nx.cycle_graph n`: `pairwise(range n, cyclic)`, so
`(i, i+1)` for `i < n-1` plus the closing edge `(n-1, 0)`.  For `n = 2`
the closing edge duplicates `(0, 1)` in the undirected graph and is
dropped; `n = 1` yields a self-loop; `n = 0` is empty. -/
def cycleEdges (n : Nat) : List (Nat × Nat) :=
  if n = 0 then []
  else if n = 1 then [(0, 0)]
  else if n = 2 then [(0, 1)]
  else ((List.range (n - 1)).map (fun i => (i, i + 1))) ++ [(n - 1, 0)]

/-- Rim of `nx.wheel_graph`: a cycle through the `r` rim nodes
`1 .. r` (the hub is node `0`); same duplicate-edge handling as
`cycleEdges`. -/
def rimEdges (r : Nat) : List (Nat × Nat) :=
  if r ≤ 1 then []
  else if r = 2 then [(1, 2)]
  else ((List.range (r - 1)).map (fun i => (i + 1, i + 2))) ++ [(r, 1)]

/-- Edge list of `nx.wheel_graph n`: hub `0` joined to every rim node,
plus the rim cycle (empty graph for `n ≤ 1`). -/
def wheelEdges (n : Nat) : List (Nat × Nat) :=
  if n ≤ 1 then []
  else ((List.range (n - 1)).map (fun i => (0, i + 1))) ++ rimEdges (n - 1)

/-- A networkx graph as produced and consumed by the code: nodes are
`0 .. n-1`, `edges` the undirected edge list, `data` the node records in
node order (fresh generator graphs have empty records). -/
structure Graph where
  n : Nat
  edges : List (Nat × Nat)
  data : List Rec
  deriving DecidableEq

def completeGraph (n : Nat) : Graph :=
  { n := n, edges := completeEdges n, data := List.replicate n [] }

def cycleGraph (n : Nat) : Graph :=
  { n := n, edges := cycleEdges n, data := List.replicate n [] }

def wheelGraph (n : Nat) : Graph :=
  { n := n, edges := wheelEdges n, data := List.replicate n [] }

/-- `self.__graph`: `None`, a graph, or an arbitrary non-graph object
(reachable through the unguarded branch of `set_graph`). -/
inductive GraphRef where
  | null
  | graph (g : Graph)
  | other (v : PValue)
  deriving DecidableEq

/-- Python truthiness of the graph field: `None` is falsy, a graph is
falsy iff `len(G) == 0` (networkx defines `__len__` as the node count),
other objects by their own truthiness. -/
def refTruthy : GraphRef → Bool
  | .null => false
  | .graph g => g.n != 0
  | .other v => !pyFalsy v

/-- `isinstance(x, nx.Graph)`. -/
def refIsGraph : GraphRef → Bool
  | .graph _ => true
  | _ => false

/-- The state of an `AgentModel` instance (see the module comment for why
the two callables are not fields). -/
structure AgentModel where
  parameters : Dict
  graph : GraphRef
  maxTimesteps : Int
  deriving DecidableEq

/-- Initial data function type: `initializer(model) -> record`. -/
abbrev InitFn := AgentModel → Rec

/-- Timestep function type: `stepper(model) -> None`, expected to mutate
the model through its handle; modelled as returning the updated model. -/
abbrev StepFn := AgentModel → AgentModel

/-- The parameter dictionary built in `__init__` and in the reset branch
of `delete_parameters`. -/
def defaultParameters : Dict :=
  [("num_nodes", .vInt 3),
   ("graph_type", .vStr "complete"),
   ("convergence_data_key", .vNone),
   ("convergence_std_dev", .vInt 100)]

/-- A freshly constructed `AgentModel()`. -/
def initModel : AgentModel :=
  { parameters := defaultParameters, graph := .null, maxTimesteps := 100000 }

/-- `update_parameters`. -/
def update_parameters (p : List (String × PValue)) (m : AgentModel) : AgentModel :=
  { m with parameters := dictUpdate m.parameters p }

/-- The four deletion-protected keys of `delete_parameters`. -/
def protectedKeys : List String :=
  ["num_nodes", "graph_type", "convergence_data_key", "convergence_std_dev"]

/-- One key is deletable when it is present and not protected (the code
raises `KeyError` when `param not in self.__parameters or param in {...}`). -/
def deletableB (d : Dict) (k : String) : Bool :=
  dictMem d k && !(protectedKeys.contains k)

/-- The `for param in parameters` loop of `delete_parameters`: stop with
`KeyError` at the first non-deletable key, keeping the deletions already
performed. -/
def deleteLoop : Dict → List String → Dict × Except String Bool
  | d, [] => (d, .ok true)
  | d, k :: rest =>
    if deletableB d k then deleteLoop (dictPop d k) rest
    else (d, .error "KeyError")

/-- `delete_parameters`: `if not parameters` treats both `None` and an
empty list as the reset case. -/
def delete_parameters (ks : Option (List String)) (m : AgentModel) :
    AgentModel × Except String Bool :=
  match ks with
  | none => ({ m with parameters := defaultParameters }, .ok true)
  | some [] => ({ m with parameters := defaultParameters }, .ok true)
  | some (k :: rest) =>
    let r := deleteLoop m.parameters (k :: rest)
    ({ m with parameters := r.1 }, r.2)

/-- `list_parameters`. -/
def list_parameters (m : AgentModel) : List String :=
  m.parameters.map (fun e => e.1)

/-- `change_max_timesteps`: no validation of the new bound. -/
def change_max_timesteps (t : Int) (m : AgentModel) : AgentModel :=
  { m with maxTimesteps := t }

/-- `__getitem__`: `KeyError` on an absent key, no mutation. -/
def getitem (m : AgentModel) (k : String) : Except String PValue :=
  match dictGet m.parameters k with
  | some v => .ok v
  | none => .error "KeyError"

/-- `__setitem__`: always succeeds, creating the key if absent. -/
def setitem (k : String) (v : PValue) (m : AgentModel) : AgentModel :=
  { m with parameters := dictSet m.parameters k v }

/-- `set_graph`: the guard is `if graph and not isinstance(graph, nx.Graph)`,
so a falsy argument of any type skips the check and is stored. -/
def set_graph (a : GraphRef) (m : AgentModel) : AgentModel × Except String Unit :=
  if refTruthy a && !refIsGraph a then
    (m, .error "The passed parameter is not a graph object.")
  else ({ m with graph := a }, .ok ())

/-- `get_graph`. -/
def get_graph (m : AgentModel) : GraphRef :=
  m.graph

/-- `int` node count for the generators: `range` of a negative integer is
empty, so a negative count builds the empty graph.  A non-integral count
is a `TypeError` inside the generator, before `self.__graph` is assigned.
(networkx would treat a *string* as an iterable of node labels; no claim
involves a non-integer `num_nodes`, and the embedding keeps integer
labels.) -/
def asNodeCount : PValue → Except String Nat
  | .vInt i => .ok i.toNat
  | _ => .error "TypeError"

/-- The topology dispatch of `initialize_graph`: `==` against `"complete"`
and `"cycle"`, every other value (of any type) falls through to the wheel
generator. -/
def buildTopology (gt : PValue) (n : Nat) : Graph :=
  if gt = .vStr "complete" then completeGraph n
  else if gt = .vStr "cycle" then cycleGraph n
  else wheelGraph n

/-- `self.__graph.nodes[node].update(initial_data)`. -/
def graphUpdateNode (g : Graph) (node : Nat) (r : Rec) : Graph :=
  { g with data := g.data.set node (dictUpdate (g.data.getD node []) r) }

/-- The population loop of `initialize_graph`: for each node in order,
call the initializer on the model (whose graph field already holds the
partially populated new graph) and merge the returned record into the
node's data.  The loop cannot change `parameters` or the bound, so they
are threaded unchanged. -/
def populate (f : InitFn) (params : Dict) (mx : Int) : List Nat → Graph → Graph
  | [], g => g
  | node :: rest, g =>
    let r := f { parameters := params, graph := .graph g, maxTimesteps := mx }
    populate f params mx rest (graphUpdateNode g node r)

/-- `initialize_graph`: reads `num_nodes` and `graph_type`, builds and
*assigns* the new topology graph, and only then checks that the
initializer is set — so the precondition failure leaves the freshly built
graph in place of any previously set one. -/
def initialize_graph (initFn : Option InitFn) (m : AgentModel) :
    AgentModel × Except String Unit :=
  match getitem m "num_nodes" with
  | .error e => (m, .error e)
  | .ok nv =>
    match getitem m "graph_type" with
    | .error e => (m, .error e)
    | .ok gt =>
      match asNodeCount nv with
      | .error e => (m, .error e)
      | .ok n =>
        let g0 := buildTopology gt n
        let m1 := { m with graph := GraphRef.graph g0 }
        match initFn with
        | none => (m1, .error "Initial data function is not set.")
        | some f =>
          ({ m with graph := GraphRef.graph (populate f m.parameters m.maxTimesteps (List.range n) g0) },
           .ok ())

/-- `timestep`: precondition failure when the stepper is unset, otherwise
one application of the stepper. -/
def timestep (stepFn : Option StepFn) (m : AgentModel) :
    AgentModel × Except String Unit :=
  match stepFn with
  | none => (m, .error "Timestep function is not set.")
  | some f => (f m, .ok ())

/-- The list comprehension `[node_data[data_key] for _, node_data in
self.__graph.nodes(data=True)]`: `KeyError` at the first record lacking
the key (a non-string key is absent from every string-keyed record). -/
def collectValues (g : Graph) (dk : PValue) : Except String (List PValue) :=
  g.data.mapM (fun r =>
    match dk with
    | .vStr s =>
      match dictGet r s with
      | some v => Except.ok v
      | none => Except.error "KeyError"
    | _ => Except.error "KeyError")

/-- `np.array(values).std()` needs a numeric array; any non-numeric entry
makes the reduction a `TypeError`. -/
def toSample (vs : List PValue) : Except String (List ℚ) :=
  match vs.mapM asNum with
  | some qs => .ok qs
  | none => .error "TypeError"

/-- The numeric sample extracted from a graph at a key. -/
def sampleValues (g : Graph) (dk : PValue) : Except String (List ℚ) :=
  match collectValues g dk with
  | .error e => .error e
  | .ok vs => toSample vs

/-- Population variance, exactly as `np.std` squares it: mean of the
squared deviations from the mean — the divisor is the sample size `N`,
not `N - 1`. -/
def popVariance (qs : List ℚ) : ℚ :=
  ((qs.map (fun x => (x - qs.sum / (qs.length : ℚ)) ^ 2)).sum) / (qs.length : ℚ)

/-- `is_converged`: collect the sample, take `nodes.std() <= std_dev`.
In exact arithmetic `sqrt v ≤ t` for `v ≥ 0` holds iff `0 ≤ t ∧ v ≤ t²`,
which is the executable comparison used here (proved equivalent to the
real square root below).  `np.std` of an empty array is `NaN` and every
`NaN` comparison is `False`; a non-numeric threshold is a `TypeError`
(as for `float <= str`). -/
def is_converged (dk sd : PValue) (m : AgentModel) : Except String Bool :=
  match m.graph with
  | .graph g =>
    match sampleValues g dk with
    | .error e => .error e
    | .ok qs =>
      match asNum sd with
      | none => .error "TypeError"
      | some t => .ok (!qs.isEmpty && decide (0 ≤ t ∧ popVariance qs ≤ t ^ 2))
  | _ => .error "AttributeError"

/-- The `while time < self.__MAX_TIMESTEPS and not self.is_converged(...)`
loop of `run_to_convergence`, with the remaining iteration budget
`fuel = MAX_TIMESTEPS.toNat - time` as the recursion measure (the loop
adds 1 to `time` per iteration, so it runs out exactly when
`time < MAX_TIMESTEPS` fails).  After each step the loop body prints
`self.__graph.nodes(data=True)`, which is an `AttributeError` when the
stepper has left a non-graph in the field. -/
def loopAux (stepFn : Option StepFn) (dk sd : PValue) :
    Nat → Nat → AgentModel → AgentModel × Except String Nat
  | 0, t, m => (m, .ok t)
  | fuel + 1, t, m =>
    match is_converged dk sd m with
    | .error e => (m, .error e)
    | .ok true => (m, .ok t)
    | .ok false =>
      match timestep stepFn m with
      | (m1, .error e) => (m1, .error e)
      | (m1, .ok _) =>
        match m1.graph with
        | .graph _ => loopAux stepFn dk sd fuel (t + 1) m1
        | _ => (m1, .error "AttributeError")

/-- `run_to_convergence`: read both parameters (left to right), fail on a
falsy data key, print the pre-loop snapshot (an `AttributeError` when the
graph field is not a graph), then loop.  Returns the final `time`. -/
def run_to_convergence (stepFn : Option StepFn) (m : AgentModel) :
    AgentModel × Except String Nat :=
  match getitem m "convergence_data_key" with
  | .error e => (m, .error e)
  | .ok dataKey =>
    match getitem m "convergence_std_dev" with
    | .error e => (m, .error e)
    | .ok stdDev =>
      if pyFalsy dataKey then (m, .error "No convergence data key specified")
      else
        match m.graph with
        | .graph _ => loopAux stepFn dataKey stdDev m.maxTimesteps.toNat 0 m
        | _ => (m, .error "AttributeError")

/-! ## Decidable equality for `Except` results -/

instance {ε α : Type _} [DecidableEq ε] [DecidableEq α] : DecidableEq (Except ε α) := fun x y =>
  match x, y with
  | .error a, .error b =>
    if h : a = b then .isTrue (h ▸ rfl) else .isFalse (fun hc => h (Except.error.inj hc))
  | .ok a, .ok b =>
    if h : a = b then .isTrue (h ▸ rfl) else .isFalse (fun hc => h (Except.ok.inj hc))
  | .error _, .ok _ => .isFalse (fun hc => Except.noConfusion hc)
  | .ok _, .error _ => .isFalse (fun hc => Except.noConfusion hc)

/-! ## C4: parameter reset -/

/-- C4: `delete_parameters` with no argument (or an empty list) succeeds,
returns `True`, and leaves the parameter set holding exactly the four
default keys with exactly the default values of a fresh model, discarding
all custom keys. -/
theorem delete_parameters_reset (m : AgentModel) (ks : Option (List String))
    (h : ks = none ∨ ks = some []) :
    delete_parameters ks m = ({ m with parameters := defaultParameters }, .ok true) := by
  rcases h with h | h <;> subst h <;> rfl

/-- A prior state with a custom key and overwritten defaults. -/
def exC4 : AgentModel :=
  { parameters := [("num_nodes", .vInt 7), ("custom", .vStr "x"),
                   ("graph_type", .vStr "cycle"), ("convergence_data_key", .vStr "id"),
                   ("convergence_std_dev", .vFloat 1)],
    graph := .null, maxTimesteps := 100000 }

/-- Witness for C4 at a concrete dirty state. -/
theorem delete_parameters_reset_witness :
    delete_parameters none exC4 = ({ exC4 with parameters := defaultParameters }, .ok true) :=
  delete_parameters_reset exC4 none (Or.inl rfl)

/-! ## C8: the `set_graph` guard lets falsy non-graph values through -/

/-- C8 (code evaluated at the failing input): `set_graph 0` — `0` is
non-`None` and not a graph — raises nothing and silently stores `0` in
the graph field, because the guard is `if graph and not isinstance(...)`
and `0` is falsy; a truthy non-graph such as `1` does raise.  This
contradicts the claim (and the method's own docstring). -/
theorem set_graph_falsy_nongraph_accepted (m : AgentModel) :
    set_graph (.other (.vInt 0)) m = ({ m with graph := .other (.vInt 0) }, .ok ())
    ∧ set_graph (.other (.vInt 1)) m = (m, .error "The passed parameter is not a graph object.") :=
  ⟨rfl, rfl⟩

/-! ## C10: a falsy convergence data key aborts the run before anything happens -/

/-- C10: whenever `convergence_data_key` holds any falsy value (`None`,
`""`, `0`, `0.0`), `run_to_convergence` raises the precondition error and
returns the model unchanged.  The theorem holds for an arbitrary stepper
argument (including `none`, where invoking the stepper would raise a
different error) and an arbitrary graph field (including `.null`, where
the convergence check would raise `AttributeError`), which shows that
neither the stepper nor the convergence check is ever consulted. -/
theorem run_to_convergence_falsy_key (m : AgentModel) (stepFn : Option StepFn)
    (dk sd : PValue)
    (hdk : dictGet m.parameters "convergence_data_key" = some dk)
    (hf : pyFalsy dk = true)
    (hsd : dictGet m.parameters "convergence_std_dev" = some sd) :
    run_to_convergence stepFn m = (m, .error "No convergence data key specified") := by
  unfold run_to_convergence getitem
  rw [hdk, hsd]
  simp [hf]

/-- A model whose data key is the falsy empty string (not `None`), with
unset stepper and unset graph. -/
def exC10 : AgentModel :=
  { parameters := [("num_nodes", .vInt 3), ("graph_type", .vStr "complete"),
                   ("convergence_data_key", .vStr ""), ("convergence_std_dev", .vInt 100)],
    graph := .null, maxTimesteps := 100000 }

/-- Witness for C10 at the falsy key `""`. -/
theorem run_to_convergence_falsy_key_witness :
    pyFalsy (.vStr "") = true ∧
    run_to_convergence none exC10 = (exC10, .error "No convergence data key specified") :=
  ⟨by decide,
   run_to_convergence_falsy_key exC10 none (.vStr "") (.vInt 100) (by decide) (by decide) (by decide)⟩

/-! ## C1: failed `initialize_graph` replaces the previously set graph -/

/-- A model with a previously set one-node graph and default parameters. -/
def exC1 : AgentModel :=
  { parameters := defaultParameters,
    graph := .graph { n := 1, edges := [], data := [[]] },
    maxTimesteps := 100000 }

/-- C1 counterexample: with no initializer set, `initialize_graph` does
raise the precondition error, but the previously set graph is *not* left
unchanged — the graph field already holds the newly built topology graph
when the error is raised (the assignment `self.__graph = nx...` precedes
the check). -/
theorem initialize_graph_replaces_on_error :
    (initialize_graph none exC1).2 = .error "Initial data function is not set."
    ∧ (initialize_graph none exC1).1.graph ≠ exC1.graph := by
  refine ⟨rfl, ?_⟩
  decide

/-- C1 amended: `initialize_graph` without an initializer raises the
precondition error, and at that point the graph field holds the freshly
built (unpopulated) topology graph for the current parameters, discarding
any previously set graph. -/
theorem initialize_graph_no_initfn (m : AgentModel) (n : Int) (gt : PValue)
    (hn : dictGet m.parameters "num_nodes" = some (.vInt n))
    (hg : dictGet m.parameters "graph_type" = some gt) :
    initialize_graph none m =
      ({ m with graph := .graph (buildTopology gt n.toNat) },
       .error "Initial data function is not set.") := by
  unfold initialize_graph getitem
  rw [hn, hg]
  rfl

/-- Witness for the amended C1 at the concrete model `exC1`. -/
theorem initialize_graph_no_initfn_witness :
    dictGet exC1.parameters "num_nodes" = some (.vInt 3) ∧
    initialize_graph none exC1 =
      ({ exC1 with graph := .graph (buildTopology (.vStr "complete") (3 : Int).toNat) },
       .error "Initial data function is not set.") :=
  ⟨by decide, initialize_graph_no_initfn exC1 3 (.vStr "complete") (by decide) (by decide)⟩

/-! ## C5: ordered, partially applied key deletion -/

/-- Sequential deletability of a key list: each key is deletable in the
state obtained after deleting the ones before it. -/
def seqDeletable : Dict → List String → Bool
  | _, [] => true
  | d, k :: rest => deletableB d k && seqDeletable (dictPop d k) rest

/-- Deleting a list of keys in order. -/
def popKeys (d : Dict) (ks : List String) : Dict :=
  ks.foldl dictPop d

theorem popKeys_nil (d : Dict) : popKeys d [] = d := rfl

theorem popKeys_cons (d : Dict) (k : String) (ks : List String) :
    popKeys d (k :: ks) = popKeys (dictPop d k) ks := rfl

/-- When every key is sequentially deletable, the loop deletes them all
and returns `True`. -/
theorem deleteLoop_ok :
    ∀ (ks : List String) (d : Dict), seqDeletable d ks = true →
      deleteLoop d ks = (popKeys d ks, .ok true) := by
  intro ks
  induction ks with
  | nil => intro d _; rfl
  | cons k rest ih =>
    intro d h
    unfold seqDeletable at h
    rw [Bool.and_eq_true] at h
    unfold deleteLoop
    rw [if_pos h.1]
    rw [popKeys_cons]
    exact ih (dictPop d k) h.2

/-- When the keys are not all sequentially deletable, the loop raises
`KeyError` at the first offending position `i`: the deletable strict
prefix has been removed (that side effect persists), the state at the
raise is exactly the original dictionary minus that prefix, and the
failing key — and everything after it — is untouched. -/
theorem deleteLoop_err :
    ∀ (ks : List String) (d : Dict), seqDeletable d ks = false →
      ∃ i, ∃ h : i < ks.length,
        seqDeletable d (ks.take i) = true ∧
        deletableB (popKeys d (ks.take i)) (ks.get ⟨i, h⟩) = false ∧
        deleteLoop d ks = (popKeys d (ks.take i), .error "KeyError") := by
  intro ks
  induction ks with
  | nil => intro d h; simp [seqDeletable] at h
  | cons k rest ih =>
    intro d h
    unfold seqDeletable at h
    rcases hk : deletableB d k with _ | _
    · refine ⟨0, Nat.succ_pos _, rfl, hk, ?_⟩
      unfold deleteLoop
      rw [if_neg (by simp [hk])]
      exact rfl
    · rw [hk, Bool.true_and] at h
      obtain ⟨i, hi, h1, h2, h3⟩ := ih (dictPop d k) h
      refine ⟨i + 1, Nat.succ_lt_succ hi, ?_, ?_, ?_⟩
      · rw [List.take_succ_cons]
        unfold seqDeletable
        rw [hk, Bool.true_and]
        exact h1
      · rw [List.take_succ_cons, popKeys_cons]
        exact h2
      · unfold deleteLoop
        rw [if_pos hk, h3, List.take_succ_cons, popKeys_cons]

/-- C5: for every model and nonempty key list, `delete_parameters`
processes the keys in order: if all of them are (sequentially) deletable
it removes exactly those keys and returns `True`; otherwise it raises a
lookup error at the first key that is absent or protected, having already
removed the deletable keys preceding it and leaving the failing key and
all later keys untouched.  `True` is returned only when every key was
deletable. -/
theorem delete_parameters_ordered (m : AgentModel) (ks : List String) (hne : ks ≠ []) :
    (seqDeletable m.parameters ks = true →
       delete_parameters (some ks) m =
         ({ m with parameters := popKeys m.parameters ks }, .ok true))
    ∧ (seqDeletable m.parameters ks = false →
       ∃ i, ∃ h : i < ks.length,
         seqDeletable m.parameters (ks.take i) = true ∧
         deletableB (popKeys m.parameters (ks.take i)) (ks.get ⟨i, h⟩) = false ∧
         delete_parameters (some ks) m =
           ({ m with parameters := popKeys m.parameters (ks.take i) }, .error "KeyError"))
    ∧ ((delete_parameters (some ks) m).2 = .ok true ↔ seqDeletable m.parameters ks = true) := by
  match ks, hne with
  | k :: rest, _ =>
    have hrun : ∀ d r, deleteLoop m.parameters (k :: rest) = (d, r) →
        delete_parameters (some (k :: rest)) m = ({ m with parameters := d }, r) := by
      intro d r h
      show ({ m with parameters := (deleteLoop m.parameters (k :: rest)).1 },
            (deleteLoop m.parameters (k :: rest)).2) = _
      rw [h]
    refine ⟨?_, ?_, ?_⟩
    · intro h
      exact hrun _ _ (deleteLoop_ok _ _ h)
    · intro h
      obtain ⟨i, hi, h1, h2, h3⟩ := deleteLoop_err _ _ h
      exact ⟨i, hi, h1, h2, hrun _ _ h3⟩
    · constructor
      · intro h
        rcases hs : seqDeletable m.parameters (k :: rest) with _ | _
        · obtain ⟨i, hi, _, _, h3⟩ := deleteLoop_err _ _ hs
          rw [hrun _ _ h3] at h
          exact absurd h (by simp)
        · rfl
      · intro h
        rw [hrun _ _ (deleteLoop_ok _ _ h)]

/-- A model with one custom key `"a"` besides the defaults. -/
def exC5 : AgentModel :=
  { parameters := defaultParameters ++ [("a", .vInt 1)],
    graph := .null, maxTimesteps := 100000 }

/-- Witness for C5: deleting `["a", "num_nodes"]` is the partial-effect
case — `"a"` is deletable but `"num_nodes"` is protected, so the
instantiated characterization applies (with its error branch enabled,
shown by the first conjunct). -/
theorem delete_parameters_ordered_witness :
    seqDeletable exC5.parameters ["a", "num_nodes"] = false ∧
    ((seqDeletable exC5.parameters ["a", "num_nodes"] = true →
       delete_parameters (some ["a", "num_nodes"]) exC5 =
         ({ exC5 with parameters := popKeys exC5.parameters ["a", "num_nodes"] }, .ok true))
    ∧ (seqDeletable exC5.parameters ["a", "num_nodes"] = false →
       ∃ i, ∃ h : i < (["a", "num_nodes"] : List String).length,
         seqDeletable exC5.parameters ((["a", "num_nodes"] : List String).take i) = true ∧
         deletableB (popKeys exC5.parameters ((["a", "num_nodes"] : List String).take i))
           ((["a", "num_nodes"] : List String).get ⟨i, h⟩) = false ∧
         delete_parameters (some ["a", "num_nodes"]) exC5 =
           ({ exC5 with parameters := popKeys exC5.parameters ((["a", "num_nodes"] : List String).take i) },
            .error "KeyError"))
    ∧ ((delete_parameters (some ["a", "num_nodes"]) exC5).2 = .ok true ↔
         seqDeletable exC5.parameters ["a", "num_nodes"] = true)) :=
  ⟨by decide, delete_parameters_ordered exC5 ["a", "num_nodes"] (by decide)⟩

/-! ## C9: the four required keys are never lost -/

theorem dictMem_iff (d : Dict) (k : String) :
    dictMem d k = true ↔ ∃ e ∈ d, e.1 = k := by
  simp [dictMem, List.any_eq_true, beq_iff_eq]

/-- `dictSet` never removes a key: it overwrites in place or appends. -/
theorem dictMem_dictSet_of_mem (d : Dict) (k : String) (v : PValue) (x : String)
    (h : dictMem d x = true) : dictMem (dictSet d k v) x = true := by
  unfold dictSet
  rw [dictMem_iff] at h
  obtain ⟨e, he, hk⟩ := h
  by_cases hm : dictMem d k
  · rw [if_pos hm, dictMem_iff]
    by_cases hek : e.1 = k
    · exact ⟨(k, v), List.mem_map.2 ⟨e, he, by simp [hek]⟩, by rw [← hek, hk]⟩
    · exact ⟨e, List.mem_map.2 ⟨e, he, by simp [hek]⟩, hk⟩
  · rw [if_neg hm, dictMem_iff]
    exact ⟨e, List.mem_append_left _ he, hk⟩

/-- Popping one key leaves every other key present. -/
theorem dictMem_dictPop_of_ne (d : Dict) (k x : String) (hne : x ≠ k)
    (h : dictMem d x = true) : dictMem (dictPop d k) x = true := by
  rw [dictMem_iff] at h ⊢
  obtain ⟨e, he, hk⟩ := h
  refine ⟨e, List.mem_filter.2 ⟨he, ?_⟩, hk⟩
  simp [hk, hne]

/-- The four required keys are all present. -/
def requiredPresent (d : Dict) : Prop :=
  dictMem d "num_nodes" = true ∧ dictMem d "graph_type" = true ∧
  dictMem d "convergence_data_key" = true ∧ dictMem d "convergence_std_dev" = true

instance (d : Dict) : Decidable (requiredPresent d) := by
  unfold requiredPresent
  infer_instance

theorem requiredPresent_dictSet (d : Dict) (k : String) (v : PValue)
    (h : requiredPresent d) : requiredPresent (dictSet d k v) :=
  ⟨dictMem_dictSet_of_mem d k v _ h.1, dictMem_dictSet_of_mem d k v _ h.2.1,
   dictMem_dictSet_of_mem d k v _ h.2.2.1, dictMem_dictSet_of_mem d k v _ h.2.2.2⟩

theorem requiredPresent_dictUpdate :
    ∀ (p : List (String × PValue)) (d : Dict),
      requiredPresent d → requiredPresent (dictUpdate d p) := by
  intro p
  induction p with
  | nil => intro d h; exact h
  | cons e rest ih =>
    intro d h
    exact ih (dictSet d e.1 e.2) (requiredPresent_dictSet d e.1 e.2 h)

/-- The deletion loop only ever pops unprotected keys, so the protected
ones survive both outcomes. -/
theorem requiredPresent_deleteLoop :
    ∀ (ks : List String) (d : Dict),
      requiredPresent d → requiredPresent (deleteLoop d ks).1 := by
  intro ks
  induction ks with
  | nil => intro d h; exact h
  | cons k rest ih =>
    intro d h
    unfold deleteLoop
    rcases hk : deletableB d k with _ | _
    · rw [if_neg (by simp)]
      exact h
    · rw [if_pos rfl]
      refine ih (dictPop d k) ?_
      unfold deletableB at hk
      rw [Bool.and_eq_true, Bool.not_eq_true'] at hk
      have hc := hk.2
      simp [protectedKeys] at hc
      exact ⟨dictMem_dictPop_of_ne d k _ (fun he => hc.1 he.symm) h.1,
             dictMem_dictPop_of_ne d k _ (fun he => hc.2.1 he.symm) h.2.1,
             dictMem_dictPop_of_ne d k _ (fun he => hc.2.2.1 he.symm) h.2.2.1,
             dictMem_dictPop_of_ne d k _ (fun he => hc.2.2.2 he.symm) h.2.2.2⟩

theorem requiredPresent_delete_parameters (ks : Option (List String)) (m : AgentModel)
    (h : requiredPresent m.parameters) :
    requiredPresent (delete_parameters ks m).1.parameters := by
  match ks with
  | none => exact (by decide : requiredPresent defaultParameters)
  | some [] => exact (by decide : requiredPresent defaultParameters)
  | some (k :: rest) => exact requiredPresent_deleteLoop (k :: rest) m.parameters h

/-- One parameter-store operation: `update_parameters`, `delete_parameters`
(with or without an argument), or indexed assignment (`__getitem__` does
not mutate and needs no case). -/
inductive ParamOp where
  | update (p : List (String × PValue))
  | delete (ks : Option (List String))
  | setIndexed (k : String) (v : PValue)

def applyParamOp (m : AgentModel) : ParamOp → AgentModel
  | .update p => update_parameters p m
  | .delete ks => (delete_parameters ks m).1
  | .setIndexed k v => setitem k v m

/-- C9: starting from a freshly constructed model, after every sequence
of parameter operations (updates, deletions with or without arguments,
indexed sets) the four required keys are still present: they can be
overwritten but never removed. -/
theorem required_keys_invariant :
    ∀ ops : List ParamOp, requiredPresent ((ops.foldl applyParamOp initModel).parameters) := by
  have main : ∀ (ops : List ParamOp) (m : AgentModel), requiredPresent m.parameters →
      requiredPresent ((ops.foldl applyParamOp m).parameters) := by
    intro ops
    induction ops with
    | nil => intro m h; exact h
    | cons op rest ih =>
      intro m h
      refine ih (applyParamOp m op) ?_
      cases op with
      | update p => exact requiredPresent_dictUpdate p m.parameters h
      | delete ks => exact requiredPresent_delete_parameters ks m h
      | setIndexed k v => exact requiredPresent_dictSet m.parameters k v h
  intro ops
  exact main ops initModel (by decide)

/-! ## C7: topology of the built graph -/

/-- Gauss sum for the complete graph: the `i`-th node contributes
`n - (i+1)` edges to later nodes. -/
theorem twoMulSumCompl :
    ∀ n : Nat, 2 * ((List.range n).map (fun i => n - (i + 1))).sum = n * (n - 1) := by
  have key : ∀ m s : Nat, 2 * s = (m + 1) * m → 2 * (m + 1 + s) = (m + 2) * (m + 1) := by
    intro m s hs
    calc 2 * (m + 1 + s) = 2 * (m + 1) + 2 * s := by ring
    _ = 2 * (m + 1) + (m + 1) * m := by rw [hs]
    _ = (m + 2) * (m + 1) := by ring
  intro n
  induction n with
  | zero => rfl
  | succ n ih =>
    rw [List.range_succ_eq_map, List.map_cons, List.map_map, List.sum_cons]
    have hfe : ((fun i => n + 1 - (i + 1)) ∘ Nat.succ) = (fun i => n - (i + 1)) := by
      funext i
      simp only [Function.comp_apply]
      omega
    rw [hfe]
    show 2 * (n + ((List.range n).map (fun i => n - (i + 1))).sum) = (n + 1) * n
    cases n with
    | zero => rfl
    | succ m => exact key m _ ih

theorem completeEdges_length (n : Nat) :
    2 * (completeEdges n).length = n * (n - 1) := by
  rw [completeEdges, List.length_flatMap]
  have h : (List.length ∘ fun i => (List.range' (i + 1) (n - (i + 1))).map (fun j => (i, j)))
       = (fun i => n - (i + 1)) := by
    funext i
    simp
  rw [h]
  exact twoMulSumCompl n

/-- Every pair `i < j < n` is an edge of the complete graph, and nothing
else is. -/
theorem completeEdges_mem (n i j : Nat) :
    (i, j) ∈ completeEdges n ↔ i < j ∧ j < n := by
  unfold completeEdges
  simp only [List.mem_flatMap, List.mem_map, List.mem_range, List.mem_range'_1, Prod.mk.injEq]
  constructor
  · rintro ⟨a, ha, b, hb, rfl, rfl⟩
    omega
  · rintro ⟨hij, hjn⟩
    exact ⟨i, by omega, j, ⟨by omega, by omega⟩, rfl, rfl⟩

/-- For `n ≥ 3` the cycle graph has exactly `n` edges (the ring). -/
theorem cycleEdges_length (n : Nat) (h : 3 ≤ n) : (cycleEdges n).length = n := by
  unfold cycleEdges
  rw [if_neg (by omega), if_neg (by omega), if_neg (by omega)]
  simp
  omega

theorem buildTopology_n (gt : PValue) (n : Nat) : (buildTopology gt n).n = n := by
  unfold buildTopology
  split
  · rfl
  · split <;> rfl

theorem buildTopology_data_length (gt : PValue) (n : Nat) :
    (buildTopology gt n).data.length = n := by
  unfold buildTopology completeGraph cycleGraph wheelGraph
  split
  · simp
  · split <;> simp

/-- The population loop only rewrites node records: node count, edge list
and record-list length are those of the graph the generator built. -/
theorem populate_preserves (f : InitFn) (params : Dict) (mx : Int) :
    ∀ (l : List Nat) (g : Graph),
      (populate f params mx l g).n = g.n ∧
      (populate f params mx l g).edges = g.edges ∧
      (populate f params mx l g).data.length = g.data.length := by
  intro l
  induction l with
  | nil => intro g; exact ⟨rfl, rfl, rfl⟩
  | cons node rest ih =>
    intro g
    obtain ⟨h1, h2, h3⟩ :=
      ih (graphUpdateNode g node
        (f { parameters := params, graph := .graph g, maxTimesteps := mx }))
    refine ⟨h1.trans rfl, h2.trans rfl, h3.trans ?_⟩
    simp [graphUpdateNode]

/-- C7: a successful `initialize_graph` builds a graph with exactly
`num_nodes` nodes; `"complete"` gives the complete graph (`n(n-1)/2`
edges, every pair connected), `"cycle"` gives the ring (`n` edges for
`n ≥ 3`), and *every* other `graph_type` value falls through to the wheel
generator. -/
theorem initialize_graph_topology (m : AgentModel) (f : InitFn) (n : Nat) (gt : PValue)
    (hn : dictGet m.parameters "num_nodes" = some (.vInt (n : Int)))
    (hg : dictGet m.parameters "graph_type" = some gt) :
    ∃ g : Graph,
      initialize_graph (some f) m = ({ m with graph := .graph g }, .ok ()) ∧
      g.n = n ∧ g.data.length = n ∧
      (gt = .vStr "complete" →
        g.edges = completeEdges n ∧ 2 * g.edges.length = n * (n - 1) ∧
        ∀ i j : Nat, i < j → j < n → (i, j) ∈ g.edges) ∧
      (gt = .vStr "cycle" → g.edges = cycleEdges n ∧ (3 ≤ n → g.edges.length = n)) ∧
      (gt ≠ .vStr "complete" → gt ≠ .vStr "cycle" → g.edges = wheelEdges n) := by
  have hrun : initialize_graph (some f) m =
      ({ m with graph := .graph (populate f m.parameters m.maxTimesteps
          (List.range ((n : Int)).toNat) (buildTopology gt ((n : Int)).toNat)) }, .ok ()) := by
    unfold initialize_graph getitem
    rw [hn, hg]
    rfl
  rw [Int.toNat_natCast] at hrun
  obtain ⟨p1, p2, p3⟩ := populate_preserves f m.parameters m.maxTimesteps
    (List.range n) (buildTopology gt n)
  refine ⟨_, hrun, p1.trans (buildTopology_n gt n), p3.trans (buildTopology_data_length gt n),
    ?_, ?_, ?_⟩
  · intro hgt
    subst hgt
    have he : (buildTopology (.vStr "complete") n).edges = completeEdges n := by
      unfold buildTopology
      rw [if_pos rfl]
      rfl
    rw [p2, he]
    exact ⟨rfl, completeEdges_length n, fun i j hij hjn => (completeEdges_mem n i j).2 ⟨hij, hjn⟩⟩
  · intro hgt
    subst hgt
    have he : (buildTopology (.vStr "cycle") n).edges = cycleEdges n := by
      unfold buildTopology
      rw [if_neg (by decide), if_pos rfl]
      rfl
    rw [p2, he]
    exact ⟨rfl, fun h3 => cycleEdges_length n h3⟩
  · intro h1 h2
    have he : (buildTopology gt n).edges = wheelEdges n := by
      unfold buildTopology
      rw [if_neg h1, if_neg h2]
      rfl
    rw [p2, he]

/-- A model requesting a 4-node graph of an unrecognized type. -/
def exC7 : AgentModel :=
  { parameters := [("num_nodes", .vInt 4), ("graph_type", .vStr "mystery"),
                   ("convergence_data_key", .vNone), ("convergence_std_dev", .vInt 100)],
    graph := .null, maxTimesteps := 100000 }

/-- Witness for C7: an unknown `graph_type` string falls through to the
wheel topology on exactly `num_nodes` nodes. -/
theorem initialize_graph_topology_witness :
    ∃ g : Graph,
      initialize_graph (some (fun _ => [("id", .vInt 10)])) exC7 =
        ({ exC7 with graph := .graph g }, .ok ()) ∧
      g.n = 4 ∧ g.data.length = 4 ∧
      ((.vStr "mystery" : PValue) = .vStr "complete" →
        g.edges = completeEdges 4 ∧ 2 * g.edges.length = 4 * (4 - 1) ∧
        ∀ i j : Nat, i < j → j < 4 → (i, j) ∈ g.edges) ∧
      ((.vStr "mystery" : PValue) = .vStr "cycle" →
        g.edges = cycleEdges 4 ∧ (3 ≤ 4 → g.edges.length = 4)) ∧
      ((.vStr "mystery" : PValue) ≠ .vStr "complete" →
        (.vStr "mystery" : PValue) ≠ .vStr "cycle" → g.edges = wheelEdges 4) :=
  initialize_graph_topology exC7 (fun _ => [("id", .vInt 10)]) 4 (.vStr "mystery")
    (by decide) (by decide)

/-! ## C6: the convergence check is the population standard deviation test -/

/-- Spec-side population variance over the reals, written exactly as the
spec describes `np.std(..)²`: the mean of the squared deviations from the
mean, divided by the sample size `N` (not `N - 1`). -/
noncomputable def realPopVar (qs : List ℚ) : ℝ :=
  ((qs.map (fun x : ℚ =>
      ((x : ℝ) - (qs.map (fun y : ℚ => (y : ℝ))).sum / (qs.length : ℝ)) ^ 2)).sum)
    / (qs.length : ℝ)

/-- Spec-side population standard deviation: the real square root of the
population variance. -/
noncomputable def popStd (qs : List ℚ) : ℝ :=
  Real.sqrt (realPopVar qs)

theorem popVariance_nonneg (qs : List ℚ) : 0 ≤ popVariance qs := by
  unfold popVariance
  apply div_nonneg
  · apply List.sum_nonneg
    intro x hx
    obtain ⟨a, _, rfl⟩ := List.mem_map.1 hx
    exact sq_nonneg _
  · exact Nat.cast_nonneg _

/-- The rational variance computed by the embedding is the real variance
of the spec formula. -/
theorem realPopVar_eq_cast (qs : List ℚ) :
    realPopVar qs = ((popVariance qs : ℚ) : ℝ) := by
  unfold realPopVar popVariance
  rw [Rat.cast_div, Rat.cast_list_sum, List.map_map]
  congr 1
  refine congrArg List.sum (List.map_congr_left ?_)
  intro x _
  simp only [Function.comp_apply]
  push_cast [Rat.cast_list_sum]
  rfl

/-- C6: on a model whose graph yields the (nonempty) numeric sample `qs`
at the string key, `is_converged` returns `True` exactly when the
population standard deviation of `qs` is at most the threshold. -/
theorem is_converged_iff_popStd (m : AgentModel) (g : Graph) (s : String) (σ : ℚ)
    (qs : List ℚ) (hg : m.graph = .graph g)
    (hs : sampleValues g (.vStr s) = .ok qs) (hne : qs ≠ []) :
    (is_converged (.vStr s) (.vFloat σ) m = .ok true) ↔ popStd qs ≤ (σ : ℝ) := by
  have hred : is_converged (.vStr s) (.vFloat σ) m =
      .ok (!qs.isEmpty && decide (0 ≤ σ ∧ popVariance qs ≤ σ ^ 2)) := by
    unfold is_converged
    rw [hg]
    simp only [hs, asNum]
  have hemp : qs.isEmpty = false := by
    cases qs with
    | nil => exact absurd rfl hne
    | cons a l => rfl
  rw [hred]
  simp only [Except.ok.injEq, hemp, Bool.not_false, Bool.true_and, decide_eq_true_eq]
  constructor
  · rintro ⟨h0, hv⟩
    unfold popStd
    rw [realPopVar_eq_cast]
    have hσ : (0 : ℝ) ≤ (σ : ℝ) := by exact_mod_cast h0
    have hvv : ((popVariance qs : ℚ) : ℝ) ≤ (σ : ℝ) ^ 2 := by exact_mod_cast hv
    calc Real.sqrt ((popVariance qs : ℚ) : ℝ) ≤ Real.sqrt ((σ : ℝ) ^ 2) :=
          Real.sqrt_le_sqrt hvv
    _ = (σ : ℝ) := Real.sqrt_sq hσ
  · intro h
    unfold popStd at h
    rw [realPopVar_eq_cast] at h
    have h0 : (0 : ℝ) ≤ (σ : ℝ) := le_trans (Real.sqrt_nonneg _) h
    have hnn : (0 : ℝ) ≤ ((popVariance qs : ℚ) : ℝ) := by
      exact_mod_cast popVariance_nonneg qs
    have hvr : ((popVariance qs : ℚ) : ℝ) ≤ (σ : ℝ) ^ 2 := by
      calc ((popVariance qs : ℚ) : ℝ) = (Real.sqrt ((popVariance qs : ℚ) : ℝ)) ^ 2 :=
            (Real.sq_sqrt hnn).symm
      _ ≤ (σ : ℝ) ^ 2 := pow_le_pow_left₀ (Real.sqrt_nonneg _) h 2
    exact ⟨by exact_mod_cast h0, by exact_mod_cast hvr⟩

/-- The graph of the spec's example: three nodes all holding `id = 5`. -/
def exG6 : Graph :=
  { n := 3, edges := completeEdges 3,
    data := [[("id", .vInt 5)], [("id", .vInt 5)], [("id", .vInt 5)]] }

def exC6 : AgentModel :=
  { parameters := defaultParameters, graph := .graph exG6, maxTimesteps := 100000 }

/-- Witness for C6 at the spec's example: sample `[5, 5, 5]` with
threshold `0` converges (its population standard deviation is `0`). -/
theorem is_converged_iff_popStd_witness :
    sampleValues exG6 (.vStr "id") = .ok [5, 5, 5] ∧
    is_converged (.vStr "id") (.vFloat 0) exC6 = .ok true :=
  ⟨by decide,
   (is_converged_iff_popStd exC6 exG6 "id" 0 [5, 5, 5] rfl (by decide) (by decide)).mpr
     (by
       have hv : realPopVar ([5, 5, 5] : List ℚ) = 0 := by
         unfold realPopVar
         norm_num
       rw [popStd, hv, Real.sqrt_zero]
       norm_num)⟩

/-! ## C2/C3: the convergence loop -/

/-- A successful loop run never makes more iterations than it has budget. -/
theorem loopAux_le (stepFn : Option StepFn) (dk sd : PValue) :
    ∀ (fuel t : Nat) (m m' : AgentModel) (tr : Nat),
      loopAux stepFn dk sd fuel t m = (m', .ok tr) → tr ≤ t + fuel := by
  intro fuel
  induction fuel with
  | zero =>
    intro t m m' tr h
    simp only [loopAux, Prod.mk.injEq, Except.ok.injEq] at h
    omega
  | succ fuel ih =>
    intro t m m' tr h
    simp only [loopAux] at h
    cases hc : is_converged dk sd m with
    | error e => simp [hc] at h
    | ok b =>
      cases b with
      | true =>
        simp only [hc, Prod.mk.injEq, Except.ok.injEq] at h
        omega
      | false =>
        simp only [hc] at h
        cases stepFn with
        | none => simp [timestep] at h
        | some f =>
          simp only [timestep] at h
          cases hg : (f m).graph with
          | graph g =>
            simp only [hg] at h
            have := ih (t + 1) (f m) m' tr h
            omega
          | null => simp [hg] at h
          | other v => simp [hg] at h

/-- Full characterization of a successful loop run with a set stepper:
the run visits the states `f^[0] m, f^[1] m, ...`; it stops after `k`
steps with `k` at most the budget, every state before the stop checked
`False`, and — whenever the budget was not exhausted — the stop state
checked `True`. -/
theorem loopAux_ok (f : StepFn) (dk sd : PValue) :
    ∀ (fuel t : Nat) (m m' : AgentModel) (tr : Nat),
      loopAux (some f) dk sd fuel t m = (m', .ok tr) →
      ∃ k, k ≤ fuel ∧ tr = t + k ∧ m' = f^[k] m ∧
        (∀ j, j < k → is_converged dk sd (f^[j] m) = .ok false) ∧
        (k < fuel → is_converged dk sd (f^[k] m) = .ok true) := by
  intro fuel
  induction fuel with
  | zero =>
    intro t m m' tr h
    simp only [loopAux, Prod.mk.injEq, Except.ok.injEq] at h
    refine ⟨0, Nat.le_refl 0, by omega, ?_, fun j hj => absurd hj (by omega),
      fun hlt => absurd hlt (by omega)⟩
    rw [Function.iterate_zero_apply]
    exact h.1.symm
  | succ fuel ih =>
    intro t m m' tr h
    simp only [loopAux] at h
    cases hc : is_converged dk sd m with
    | error e => simp [hc] at h
    | ok b =>
      cases b with
      | true =>
        simp only [hc, Prod.mk.injEq, Except.ok.injEq] at h
        refine ⟨0, Nat.zero_le _, by omega, ?_, fun j hj => absurd hj (by omega), fun _ => ?_⟩
        · rw [Function.iterate_zero_apply]
          exact h.1.symm
        · rw [Function.iterate_zero_apply]
          exact hc
      | false =>
        simp only [hc, timestep] at h
        cases hg : (f m).graph with
        | graph g =>
          simp only [hg] at h
          obtain ⟨k, hk, htr, hm, hall, hlast⟩ := ih (t + 1) (f m) m' tr h
          refine ⟨k + 1, by omega, by omega, ?_, ?_, ?_⟩
          · rw [Function.iterate_succ_apply]
            exact hm
          · intro j hj
            cases j with
            | zero =>
              rw [Function.iterate_zero_apply]
              exact hc
            | succ i =>
              rw [Function.iterate_succ_apply]
              exact hall i (by omega)
          · intro hlt
            rw [Function.iterate_succ_apply]
            exact hlast (by omega)
        | null => simp [hg] at h
        | other v => simp [hg] at h

/-- When both convergence parameters are present, the key is truthy and a
graph is set, `run_to_convergence` is exactly the loop started at time 0
with budget `maxTimesteps.toNat`. -/
theorem run_to_convergence_loop (m : AgentModel) (stepFn : Option StepFn) (dk sd : PValue)
    (hdk : dictGet m.parameters "convergence_data_key" = some dk)
    (hsd : dictGet m.parameters "convergence_std_dev" = some sd)
    (hfl : pyFalsy dk = false)
    (g : Graph) (hg : m.graph = .graph g) :
    run_to_convergence stepFn m = loopAux stepFn dk sd m.maxTimesteps.toNat 0 m := by
  unfold run_to_convergence getitem
  rw [hdk, hsd]
  simp [hfl, hg]

/-- Same situation but with a non-graph in the graph field: the pre-loop
snapshot print raises `AttributeError` before any step or check. -/
theorem run_to_convergence_nograph (m : AgentModel) (stepFn : Option StepFn) (dk sd : PValue)
    (hdk : dictGet m.parameters "convergence_data_key" = some dk)
    (hsd : dictGet m.parameters "convergence_std_dev" = some sd)
    (hfl : pyFalsy dk = false)
    (hg : refIsGraph m.graph = false) :
    run_to_convergence stepFn m = (m, .error "AttributeError") := by
  unfold run_to_convergence getitem
  rw [hdk, hsd]
  cases hgr : m.graph with
  | null => simp [hfl]
  | graph g =>
    rw [hgr] at hg
    simp [refIsGraph] at hg
  | other v => simp [hfl]

/-- C3 amended: a successful convergence run returns at most
`max(maxTimesteps, 0)` timesteps (so at most the bound whenever the bound
is nonnegative, but `0` — not the bound — when the bound is negative);
and with a zero or negative bound the run terminates immediately,
returning `0` with the model unchanged, without ever evaluating the
convergence predicate (the second part holds for arbitrary node data and
an arbitrary, even unset, stepper). -/
theorem run_to_convergence_bound :
    (∀ (stepFn : Option StepFn) (m m' : AgentModel) (tr : Nat),
        run_to_convergence stepFn m = (m', .ok tr) → (tr : Int) ≤ max m.maxTimesteps 0)
    ∧ (∀ (stepFn : Option StepFn) (m : AgentModel) (dk sd : PValue) (g : Graph),
        dictGet m.parameters "convergence_data_key" = some dk → pyFalsy dk = false →
        dictGet m.parameters "convergence_std_dev" = some sd →
        m.graph = .graph g → m.maxTimesteps ≤ 0 →
        run_to_convergence stepFn m = (m, .ok 0)) := by
  constructor
  · intro stepFn m m' tr h
    unfold run_to_convergence getitem at h
    split at h
    · exact absurd h (by simp)
    · split at h
      · exact absurd h (by simp)
      · split at h
        · exact absurd h (by simp)
        · split at h
          · have hle := loopAux_le stepFn _ _ _ _ _ _ _ h
            omega
          · exact absurd h (by simp)
  · intro stepFn m dk sd g hdk hfl hsd hg hneg
    rw [run_to_convergence_loop m stepFn dk sd hdk hsd hfl g hg]
    rw [Int.toNat_of_nonpos hneg]
    rfl

/-- A model with a truthy key, a one-node graph, and bound `-5`. -/
def exC3 : AgentModel :=
  { parameters := [("num_nodes", .vInt 3), ("graph_type", .vStr "complete"),
                   ("convergence_data_key", .vStr "id"), ("convergence_std_dev", .vInt 0)],
    graph := .graph { n := 1, edges := [], data := [[("id", .vInt 0)]] },
    maxTimesteps := -5 }

/-- C3 counterexample: with the bound set to `-5` the run succeeds and
returns `0`, which is *not* `≤` the installed bound — the "returned count
≤ bound" clause fails for negative bounds. -/
theorem run_to_convergence_negative_bound_cex :
    run_to_convergence none exC3 = (exC3, .ok 0) ∧ ¬((0 : Int) ≤ exC3.maxTimesteps) := by
  constructor
  · decide
  · decide

/-- Same model with bound `0` (the zero-bound case of C3). -/
def exC3w : AgentModel :=
  { parameters := [("num_nodes", .vInt 3), ("graph_type", .vStr "complete"),
                   ("convergence_data_key", .vStr "id"), ("convergence_std_dev", .vInt 0)],
    graph := .graph { n := 1, edges := [], data := [[("id", .vInt 0)]] },
    maxTimesteps := 0 }

/-- Witness for the amended C3: with a zero bound and no stepper set, the
run still succeeds immediately with `0`. -/
theorem run_to_convergence_bound_witness :
    pyFalsy (.vStr "id") = false ∧
    run_to_convergence none exC3w = (exC3w, .ok 0) :=
  ⟨by decide,
   run_to_convergence_bound.2 none exC3w (.vStr "id") (.vInt 0)
     { n := 1, edges := [], data := [[("id", .vInt 0)]] }
     (by decide) (by decide) (by decide) rfl (by decide)⟩

/-- C2 amended: with a nonnegative bound, a stepper, both convergence
parameters present and the key truthy, a successful `run_to_convergence`
returns the bound when no visited state satisfied the convergence
predicate, otherwise the first time at which the (post-step) state
satisfied it; and when the initial state already satisfies it, the run
returns `0` without executing any timestep (the model is returned
unchanged).  With a *negative* bound the code instead returns `0` (see
the counterexample). -/
theorem run_to_convergence_first_time (m m' : AgentModel) (f : StepFn) (dk sd : PValue)
    (tr : Nat)
    (hdk : dictGet m.parameters "convergence_data_key" = some dk)
    (hsd : dictGet m.parameters "convergence_std_dev" = some sd)
    (hmax : 0 ≤ m.maxTimesteps)
    (hrun : run_to_convergence (some f) m = (m', .ok tr)) :
    ((∀ j, j < m.maxTimesteps.toNat → is_converged dk sd (f^[j] m) ≠ .ok true) →
        (tr : Int) = m.maxTimesteps)
    ∧ (∀ j, j < m.maxTimesteps.toNat → is_converged dk sd (f^[j] m) = .ok true →
        (∀ i, i < j → is_converged dk sd (f^[i] m) ≠ .ok true) → tr = j)
    ∧ (is_converged dk sd m = .ok true → tr = 0 ∧ m' = m) := by
  cases hfl : pyFalsy dk with
  | true =>
    rw [run_to_convergence_falsy_key m (some f) dk sd hdk hfl hsd] at hrun
    exact absurd hrun (by simp)
  | false =>
    cases hgr : m.graph with
    | null =>
      rw [run_to_convergence_nograph m (some f) dk sd hdk hsd hfl (by rw [hgr]; rfl)] at hrun
      exact absurd hrun (by simp)
    | other v =>
      rw [run_to_convergence_nograph m (some f) dk sd hdk hsd hfl (by rw [hgr]; rfl)] at hrun
      exact absurd hrun (by simp)
    | graph g =>
      rw [run_to_convergence_loop m (some f) dk sd hdk hsd hfl g hgr] at hrun
      obtain ⟨k, hk, htr, hm, hall, hlast⟩ :=
        loopAux_ok f dk sd m.maxTimesteps.toNat 0 m m' tr hrun
      refine ⟨?_, ?_, ?_⟩
      · intro hnone
        by_cases hkN : k < m.maxTimesteps.toNat
        · exact absurd (hlast hkN) (hnone k hkN)
        · omega
      · intro j hjN hconv hmin
        by_cases hjk : j < k
        · rw [hall j hjk] at hconv
          exact absurd hconv (by simp)
        · by_cases hkj : k < j
          · exact absurd (hlast (by omega)) (hmin k hkj)
          · omega
      · intro hconv0
        have hk0 : k = 0 := by
          by_contra hne
          have hfalse := hall 0 (Nat.pos_of_ne_zero hne)
          rw [Function.iterate_zero_apply] at hfalse
          rw [hfalse] at hconv0
          exact absurd hconv0 (by simp)
        constructor
        · omega
        · rw [hm, hk0, Function.iterate_zero_apply]

/-- A two-node graph with `id` values `0` and `100` (not converged for
threshold `0`). -/
def gW : Graph :=
  { n := 2, edges := [(0, 1)], data := [[("id", .vInt 0)], [("id", .vInt 100)]] }

/-- A two-node graph with both `id` values `7` (converged for
threshold `0`). -/
def gSeven : Graph :=
  { n := 2, edges := [(0, 1)], data := [[("id", .vInt 7)], [("id", .vInt 7)]] }

/-- On any model holding `gW`, the convergence check at key `"id"` and
threshold `0` is `False` (the population variance of `[0, 100]` is
`2500`). -/
theorem is_converged_gW (m : AgentModel) (hg : m.graph = .graph gW) :
    is_converged (.vStr "id") (.vInt 0) m = .ok false := by
  have hs : sampleValues gW (.vStr "id") = .ok [0, 100] := by decide
  unfold is_converged
  rw [hg]
  simp only [hs, asNum]
  norm_num [popVariance]

/-- On any model holding `gSeven`, the convergence check at key `"id"`
and threshold `0` is `True` (variance `0`). -/
theorem is_converged_gSeven (m : AgentModel) (hg : m.graph = .graph gSeven) :
    is_converged (.vStr "id") (.vInt 0) m = .ok true := by
  have hs : sampleValues gSeven (.vStr "id") = .ok [7, 7] := by decide
  unfold is_converged
  rw [hg]
  simp only [hs, asNum]
  norm_num [popVariance]

/-- A model with a truthy key, the non-converged graph `gW`, threshold
`0`, and bound `-1`. -/
def exC2cex : AgentModel :=
  { parameters := [("num_nodes", .vInt 3), ("graph_type", .vStr "complete"),
                   ("convergence_data_key", .vStr "id"), ("convergence_std_dev", .vInt 0)],
    graph := .graph gW,
    maxTimesteps := -1 }

/-- C2 counterexample: with the bound `-1`, the run succeeds returning
`0`, yet `0` is neither the bound (the claim's "never converged" branch —
vacuously no state was visited) nor a time whose state satisfies the
convergence predicate (the claim's "first convergence time" branch, which
for a return of `0` requires the initial state to satisfy it; here it
does not).  So the claimed disjunction is false on the code. -/
theorem run_to_convergence_not_first_time_cex :
    ¬ (∀ tr : Nat, (run_to_convergence (some (fun x => x)) exC2cex).2 = .ok tr →
        (((tr : Int) = exC2cex.maxTimesteps ∧
            ∀ j, j < exC2cex.maxTimesteps.toNat →
              is_converged (.vStr "id") (.vInt 0) ((fun x : AgentModel => x)^[j] exC2cex) ≠ .ok true)
          ∨ is_converged (.vStr "id") (.vInt 0) ((fun x : AgentModel => x)^[tr] exC2cex) = .ok true)) := by
  intro hcl
  have h0 := hcl 0 (by decide)
  rcases h0 with ⟨hb, _⟩ | hc
  · exact absurd hb (by decide)
  · rw [Function.iterate_zero_apply] at hc
    rw [is_converged_gW exC2cex rfl] at hc
    exact absurd hc (by simp)

/-- A stepper that overwrites both node records with `id = 7`. -/
def stepC2 : StepFn := fun x => { x with graph := .graph gSeven }

/-- `exC2cex` with a positive bound `3`. -/
def exC2w : AgentModel :=
  { parameters := [("num_nodes", .vInt 3), ("graph_type", .vStr "complete"),
                   ("convergence_data_key", .vStr "id"), ("convergence_std_dev", .vInt 0)],
    graph := .graph gW,
    maxTimesteps := 3 }

/-- Concrete run: starting non-converged with bound `3`, one step makes
the data converge, so the run returns time `1` with the stepped model. -/
theorem run_exC2w : run_to_convergence (some stepC2) exC2w = (stepC2 exC2w, .ok 1) := by
  have h0 : is_converged (.vStr "id") (.vInt 0) exC2w = .ok false := is_converged_gW exC2w rfl
  have h1 : is_converged (.vStr "id") (.vInt 0) (stepC2 exC2w) = .ok true :=
    is_converged_gSeven (stepC2 exC2w) rfl
  rw [run_to_convergence_loop exC2w (some stepC2) (.vStr "id") (.vInt 0) (by decide) (by decide)
      (by decide) gW rfl]
  show loopAux (some stepC2) (.vStr "id") (.vInt 0) (2 + 1) 0 exC2w = (stepC2 exC2w, .ok 1)
  have hstep1 : loopAux (some stepC2) (.vStr "id") (.vInt 0) (2 + 1) 0 exC2w
      = loopAux (some stepC2) (.vStr "id") (.vInt 0) 2 1 (stepC2 exC2w) := by
    simp only [loopAux, h0, timestep]
    rfl
  rw [hstep1]
  show loopAux (some stepC2) (.vStr "id") (.vInt 0) (1 + 1) 1 (stepC2 exC2w) = (stepC2 exC2w, .ok 1)
  simp only [loopAux, h1]

/-- Witness for the amended C2: the run stops after the first step makes
the data converge, returning time `1`, and the instantiated
first-convergence-time clause applies. -/
theorem run_to_convergence_first_time_witness :
    run_to_convergence (some stepC2) exC2w = (stepC2 exC2w, .ok 1) ∧
    (∀ j, j < exC2w.maxTimesteps.toNat →
        is_converged (.vStr "id") (.vInt 0) (stepC2^[j] exC2w) = .ok true →
        (∀ i, i < j → is_converged (.vStr "id") (.vInt 0) (stepC2^[i] exC2w) ≠ .ok true) →
        1 = j) :=
  ⟨run_exC2w,
   (run_to_convergence_first_time exC2w (stepC2 exC2w) stepC2 (.vStr "id") (.vInt 0) 1
      (by decide) (by decide) (by decide) run_exC2w).2.1⟩

end Emergent
